import Mathlib

/-!
# Correlation_Multistrategy — verification of the data pipeline

A shallow embedding of the data-handling core of `src/app.py`: the
stress-test workbook loader `load_stress_data` (sheet-name splitting,
positional column renaming, projection to five canonical fields, union of
all sheets), the correlation workbook loader `load_corr_data` (date-indexed
ascending sort), and the peer/bucket comparison block (empty-bucket guard
`df_bucket`, grouped median/quantile statistics `df_bucket_stats`).

Sheet names are embedded as `List Char`; cell values of a stress sheet are
an arbitrary type `α` (the loader only moves them around); `StressPnL`
values in the bucket statistics are embedded as `ℚ` (the source holds
floating-point numbers and computes linearly interpolated quantiles on
them; the order/interpolation structure is what the properties are about).
-/

namespace CorrMulti

/-! ## Sheet-name resolution (app.py lines 50-53)

```python
if "_" in sheet_name:
    portfolio, scenario_name = sheet_name.split("_", 1)
else:
    portfolio, scenario_name = sheet_name, sheet_name
```

`str.split("_", 1)` splits at the *first* underscore: the part before it
and everything after it. -/

/-- The split of a sheet name into `(portfolio, scenario_name)` exactly as
app.py lines 50-53 perform it: at the first `'_'` when one is present,
otherwise both components are the whole name. -/
def split_sheet_name (s : List Char) : List Char × List Char :=
  if '_' ∈ s then
    (s.takeWhile (· ≠ '_'), (s.dropWhile (· ≠ '_')).drop 1)
  else
    (s, s)

/-- Follows the spec's words (§4.2 Sheet-Name Resolver), for comparison
with the code's `split_sheet_name`: iterate the registry in its stored
length-descending order; on the first token `t` such that the name ends
with `"_" + t`, split at that boundary and return `(prefixPart, t)`; with
no match fall back to `(name, "UNKNOWN")`. -/
def resolve_spec (registry : List (List Char)) (name : List Char) :
    List Char × List Char :=
  match registry.find? (fun t => ('_' :: t).isSuffixOf name) with
  | some t => (name.take (name.length - (t.length + 1)), t)
  | none => (name, "UNKNOWN".toList)

/-! ## Stress-test workbook loader (app.py lines 46-64)

A workbook is the list of its sheets; a sheet carries its name, its column
count (the length of `df.columns`) and its rows.  In a `pandas.DataFrame`
every row has exactly as many cells as there are columns; cells are left
abstract (`α`) because `load_stress_data` only relocates them.

```python
df = df.rename(columns={df.columns[0]: "Date",
                        df.columns[2]: "Scenario",
                        df.columns[4]: "StressPnL"})
```

`df.columns[4]` raises `IndexError` when the sheet has fewer than five
columns, aborting the whole call; otherwise the rename makes columns
0, 2, 4 the fields Date, Scenario, StressPnL (the sheets' header names are
distinct, so renaming by the header found at a position is positional).
`pd.to_datetime` on the Date column is the identity in this embedding
(cells are opaque).  The final `pd.concat(records)` raises when `records`
is empty, i.e. exactly when the workbook has no sheets. -/

/-- One sheet of a stress workbook: its name, the length of `df.columns`,
and its rows (each a list of `ncols` cells). -/
structure Sheet (α : Type) where
  sheet_name : List Char
  ncols : Nat
  rows : List (List α)
deriving DecidableEq

/-- One row of the normalized output: the five canonical fields
`["Date", "Scenario", "StressPnL", "Portfolio", "ScenarioName"]` that
app.py line 63 projects to. -/
structure StressRecord (α : Type) where
  date : α
  scenario : α
  stressPnL : α
  portfolio : List Char
  scenarioName : List Char
deriving DecidableEq

/-- The error `pd.concat([])` raises when the workbook has no sheets. -/
def no_objects_msg : String := "No objects to concatenate"

/-- The error `df.columns[4]` (or `[2]`, `[0]`) raises when a sheet has
fewer than five columns. -/
def out_of_bounds_msg : String := "index out of bounds"

/-- app.py lines 54-63 for one sheet: rename columns 0/2/4 to
Date/Scenario/StressPnL, attach the split sheet name as
Portfolio/ScenarioName, project to the five canonical fields. -/
def sheet_records [Inhabited α] (sh : Sheet α) : List (StressRecord α) :=
  sh.rows.map fun row =>
    { date := row.getD 0 default
      scenario := row.getD 2 default
      stressPnL := row.getD 4 default
      portfolio := (split_sheet_name sh.sheet_name).1
      scenarioName := (split_sheet_name sh.sheet_name).2 }

/-- Reading one sheet: `IndexError` when the positional rename contract is
violated (fewer than five columns), the projected records otherwise. -/
def read_sheet [Inhabited α] (sh : Sheet α) : Except String (List (StressRecord α)) :=
  if sh.ncols < 5 then Except.error out_of_bounds_msg
  else Except.ok (sheet_records sh)

/-- The `for sheet_name in xls.sheet_names` loop of app.py lines 49-63:
sheets are processed in order and the first raising sheet aborts the call,
so no partial record collection escapes. -/
def concat_sheets [Inhabited α] : List (Sheet α) → Except String (List (StressRecord α))
  | [] => Except.ok []
  | sh :: rest =>
    match read_sheet sh with
    | Except.error e => Except.error e
    | Except.ok r =>
      match concat_sheets rest with
      | Except.error e => Except.error e
      | Except.ok rs => Except.ok (r ++ rs)

/-- app.py lines 46-64, `load_stress_data`: loop over the sheets, then
`pd.concat(records, ignore_index=True)` — which raises when no sheet was
read, i.e. when the workbook is empty. -/
def load_stress_data [Inhabited α] (wb : List (Sheet α)) :
    Except String (List (StressRecord α)) :=
  if wb.isEmpty then Except.error no_objects_msg else concat_sheets wb

/-- app.py lines 227-254: the second, textually identical definition of
`load_stress_data` (the source re-defines the same function several
times). -/
def load_stress_data_v2 [Inhabited α] (wb : List (Sheet α)) :
    Except String (List (StressRecord α)) :=
  if wb.isEmpty then Except.error no_objects_msg else concat_sheets wb

/-- app.py lines 276-303: the third definition of `load_stress_data`. -/
def load_stress_data_v3 [Inhabited α] (wb : List (Sheet α)) :
    Except String (List (StressRecord α)) :=
  if wb.isEmpty then Except.error no_objects_msg else concat_sheets wb

/-- app.py lines 322-349: the fourth definition of `load_stress_data`. -/
def load_stress_data_v4 [Inhabited α] (wb : List (Sheet α)) :
    Except String (List (StressRecord α)) :=
  if wb.isEmpty then Except.error no_objects_msg else concat_sheets wb

/-- app.py lines 368-395: the fifth definition of `load_stress_data` (the
one in scope when the stress tab renders). -/
def load_stress_data_v5 [Inhabited α] (wb : List (Sheet α)) :
    Except String (List (StressRecord α)) :=
  if wb.isEmpty then Except.error no_objects_msg else concat_sheets wb

/-- The three stress sheets of the spec's Scenario E2E property, one data
row each (five cells: Date, two unnamed cells, and StressPnL at positions
0, 2, 4 after the rename; the middle cells are arbitrary). -/
def stress_wb_e2e : List (Sheet String) :=
  [⟨"ALPHA_RATES_UP".toList, 5,
      [["2024-01-31", "b", "SC", "d", "12.5"]]⟩,
   ⟨"ALPHA_RATES_DOWN".toList, 5,
      [["2024-01-31", "b", "SC", "d", "-8.0"]]⟩,
   ⟨"BETA_RATES_UP".toList, 5,
      [["2024-01-31", "b", "SC", "d", "4.2"]]⟩]

/-- The three records the Scenario E2E workbook normalizes to. -/
def stress_records_e2e : List (StressRecord String) :=
  [⟨"2024-01-31", "SC", "12.5", "ALPHA".toList, "RATES_UP".toList⟩,
   ⟨"2024-01-31", "SC", "-8.0", "ALPHA".toList, "RATES_DOWN".toList⟩,
   ⟨"2024-01-31", "SC", "4.2", "BETA".toList, "RATES_UP".toList⟩]

/-! ## Correlation workbook loader (app.py lines 31-36)

```python
df = pd.read_excel(path, sheet_name="Correlation Clean")
df.iloc[:, 0] = pd.to_datetime(df.iloc[:, 0])
df = df.set_index(df.columns[0]).sort_index()
```

The "Correlation Clean" sheet is embedded as the list of its rows after
`set_index`: each row is the date of its first cell (as an ordinal `ℤ`,
`pd.to_datetime` being injective and monotone on calendar dates) paired
with the remaining cells of that row.  `sort_index()` reorders the rows
ascending by that key and touches nothing else. -/

/-- One row of the "Correlation Clean" sheet once its first column is the
index: the date ordinal and the remaining (series) cells of the row. -/
abbrev CorrRow : Type := ℤ × List ℚ

/-- The `sort_index()` key order: row dates ascending. -/
def date_le (a b : CorrRow) : Prop := a.1 ≤ b.1

instance : DecidableRel date_le := fun a b => inferInstanceAs (Decidable (a.1 ≤ b.1))

instance : IsTotal CorrRow date_le := ⟨fun a b => le_total a.1 b.1⟩

instance : IsTrans CorrRow date_le := ⟨fun _ _ _ h1 h2 => le_trans h1 h2⟩

/-- app.py lines 31-36, `load_corr_data`: index the sheet by its first
column and sort ascending by it, leaving every row's series cells attached
to its date. -/
def load_corr_data (rows : List CorrRow) : List CorrRow :=
  List.insertionSort date_le rows

/-! ## Peer/bucket comparison (app.py lines 587-604)

`df_filtered` rows carry (among the five canonical fields) the Portfolio
and ScenarioName tags and the numeric StressPnL value — the three columns
the comparison block touches.  `StressPnL` is embedded as `ℚ`.

```python
df_bucket = df_filtered[df_filtered["Portfolio"] != selected_portfolio][...]
if df_bucket.empty:
    st.warning("Not enough portfolios selected for bucket comparison.")
    st.stop()
df_bucket_stats = (df_bucket.groupby("ScenarioName", as_index=False)
    .agg(bucket_median=("StressPnL", "median"),
         q25=("StressPnL", lambda x: x.quantile(0.25)),
         q75=("StressPnL", lambda x: x.quantile(0.75))))
```

`st.stop()` halts the script run, so an empty bucket yields the warning
and no statistics: the block is embedded as an `Except`.  `groupby` keys
are kept in first-occurrence order here (pandas sorts them; the key order
is immaterial to every property below).  `Series.median` and
`Series.quantile(q)` use the linear-interpolation definition: on the
sorted values `s` of length `n`, `quantile(q)` interpolates between the
entries at positions `⌊q*(n-1)⌋` and `⌈q*(n-1)⌉`, and `median` is the
middle entry (odd `n`) or the mean of the two middle entries (even `n`). -/

/-- One row of `df_filtered` restricted to the columns the comparison
block reads. -/
structure PnlRow where
  portfolio : String
  scenarioName : String
  stressPnL : ℚ
deriving DecidableEq

/-- Linear interpolation into a sorted list at fractional position `h`,
between the entries at `⌊h⌋` and `⌈h⌉`. -/
def interp_at (s : List ℚ) (h : ℚ) : ℚ :=
  s.getD ⌊h⌋.toNat 0 + (h - ⌊h⌋) * (s.getD ⌈h⌉.toNat 0 - s.getD ⌊h⌋.toNat 0)

/-- `pandas.Series.quantile(p)` with the default linear interpolation:
sort the values and interpolate at position `p * (n - 1)`. -/
def quantile (xs : List ℚ) (p : ℚ) : ℚ :=
  let s := List.insertionSort (· ≤ ·) xs
  if s.length = 0 then 0 else interp_at s (p * (s.length - 1))

/-- `pandas.Series.median`: the middle sorted value, or the mean of the
two middle sorted values when the count is even. -/
def median (xs : List ℚ) : ℚ :=
  let s := List.insertionSort (· ≤ ·) xs
  let n := s.length
  if n = 0 then 0
  else if n % 2 = 1 then s.getD (n / 2) 0
  else (s.getD (n / 2 - 1) 0 + s.getD (n / 2) 0) / 2

/-- One row of `df_bucket_stats`: the grouped key and the three aggregated
columns of app.py lines 596-604. -/
structure BucketStat where
  scenarioName : String
  bucket_median : ℚ
  q25 : ℚ
  q75 : ℚ
deriving DecidableEq

/-- The StressPnL values of one scenario group of the bucket. -/
def scenario_values (bucket : List PnlRow) (sc : String) : List ℚ :=
  (bucket.filter fun r => r.scenarioName = sc).map fun r => r.stressPnL

/-- app.py lines 596-604: group the bucket by ScenarioName and aggregate
the group's StressPnL values into median, 25% and 75% quantiles. -/
def df_bucket_stats (bucket : List PnlRow) : List BucketStat :=
  ((bucket.map fun r => r.scenarioName).dedup).map fun sc =>
    { scenarioName := sc
      bucket_median := median (scenario_values bucket sc)
      q25 := quantile (scenario_values bucket sc) (1 / 4)
      q75 := quantile (scenario_values bucket sc) (3 / 4) }

/-- The message of app.py line 592. -/
def not_enough_msg : String := "Not enough portfolios selected for bucket comparison."

/-- app.py lines 587-604 as one step: partition off the bucket (rows of
portfolios other than the selected one); an empty bucket stops the run
with the warning, a non-empty one gets its grouped statistics. -/
def comparison_analysis (df_filtered : List PnlRow) (selected_portfolio : String) :
    Except String (List BucketStat) :=
  let df_bucket := df_filtered.filter fun r => r.portfolio ≠ selected_portfolio
  if df_bucket.isEmpty then Except.error not_enough_msg
  else Except.ok (df_bucket_stats df_bucket)

/-! ### Properties of the sheet-name split -/

/-- When the name holds an underscore, the two components of the split
reassemble to the original name around one `'_'`. -/
theorem split_concat {s : List Char} (h : '_' ∈ s) :
    (split_sheet_name s).1 ++ '_' :: (split_sheet_name s).2 = s := by
  rw [split_sheet_name, if_pos h]
  induction s with
  | nil => cases h
  | cons c cs ih =>
    by_cases hc : c = '_'
    · subst hc
      simp [List.takeWhile, List.dropWhile]
    · have hmem : '_' ∈ cs := by
        cases List.mem_cons.mp h with
        | inl h1 => exact absurd h1.symm hc
        | inr h2 => exact h2
      have := ih hmem
      simpa [List.takeWhile_cons, List.dropWhile_cons, hc] using this

/-- On a name holding an underscore, the portfolio component is
underscore-free: the split is at the *first* underscore of the name. -/
theorem split_fst_no_underscore_of_mem {s : List Char} (h : '_' ∈ s) :
    '_' ∉ (split_sheet_name s).1 := by
  rw [split_sheet_name, if_pos h]
  intro hmem
  have := List.mem_takeWhile_imp hmem
  simp at this

/-- On a name with no underscore, both components of the split are the
whole name. -/
theorem split_of_not_mem {s : List Char} (h : '_' ∉ s) :
    split_sheet_name s = (s, s) := by
  rw [split_sheet_name, if_neg h]

/-- A successful loop pass yields one record per source row (the lengths
add up sheet by sheet). -/
theorem concat_sheets_length [Inhabited α] {wb : List (Sheet α)}
    {recs : List (StressRecord α)} (h : concat_sheets wb = Except.ok recs) :
    recs.length = (wb.map fun sh => sh.rows.length).sum := by
  induction wb generalizing recs with
  | nil =>
    simp only [concat_sheets] at h
    cases h
    simp
  | cons sh rest ih =>
    simp only [concat_sheets] at h
    cases hread : read_sheet sh with
    | error e => rw [hread] at h; cases h
    | ok r =>
      rw [hread] at h
      cases hrest : concat_sheets (α := α) rest with
      | error e => rw [hrest] at h; cases h
      | ok rs =>
        rw [hrest] at h
        cases h
        have hr : r = sheet_records sh := by
          by_cases h5 : sh.ncols < 5
          · rw [read_sheet, if_pos h5] at hread; cases hread
          · rw [read_sheet, if_neg h5] at hread; cases hread; rfl
        subst hr
        simp [sheet_records, ih hrest]

/-- Every record a successful loop pass emits takes its Date, Scenario and
StressPnL from cells 0, 2 and 4 of some row of some sheet, and its
Portfolio/ScenarioName from that sheet's split name. -/
theorem concat_sheets_fields [Inhabited α] {wb : List (Sheet α)}
    {recs : List (StressRecord α)} (h : concat_sheets wb = Except.ok recs) :
    ∀ rec ∈ recs, ∃ sh ∈ wb, ∃ row ∈ sh.rows,
      rec.date = row.getD 0 default ∧
      rec.scenario = row.getD 2 default ∧
      rec.stressPnL = row.getD 4 default ∧
      rec.portfolio = (split_sheet_name sh.sheet_name).1 ∧
      rec.scenarioName = (split_sheet_name sh.sheet_name).2 := by
  induction wb generalizing recs with
  | nil =>
    simp only [concat_sheets] at h
    cases h
    intro rec hrec
    cases hrec
  | cons sh rest ih =>
    simp only [concat_sheets] at h
    cases hread : read_sheet sh with
    | error e => rw [hread] at h; cases h
    | ok r =>
      rw [hread] at h
      cases hrest : concat_sheets (α := α) rest with
      | error e => rw [hrest] at h; cases h
      | ok rs =>
        rw [hrest] at h
        cases h
        have hr : r = sheet_records sh := by
          by_cases h5 : sh.ncols < 5
          · rw [read_sheet, if_pos h5] at hread; cases hread
          · rw [read_sheet, if_neg h5] at hread; cases hread; rfl
        subst hr
        intro rec hrec
        rcases List.mem_append.mp hrec with hmem | hmem
        · rcases List.mem_map.mp hmem with ⟨row, hrow, hrec⟩
          exact ⟨sh, List.mem_cons_self sh rest, row, hrow, by
            subst hrec
            exact ⟨rfl, rfl, rfl, rfl, rfl⟩⟩
        · rcases ih hrest rec hmem with ⟨sh', hsh', rest_facts⟩
          exact ⟨sh', List.mem_cons_of_mem sh hsh', rest_facts⟩

/-- One sheet with fewer than five columns aborts the whole loop with the
`IndexError` of the positional rename, wherever in the workbook it sits. -/
theorem concat_sheets_error [Inhabited α] {wb : List (Sheet α)} {sh : Sheet α}
    (hmem : sh ∈ wb) (h5 : sh.ncols < 5) :
    concat_sheets wb = Except.error out_of_bounds_msg := by
  induction wb with
  | nil => cases hmem
  | cons sh' rest ih =>
    simp only [concat_sheets]
    by_cases h5' : sh'.ncols < 5
    · rw [read_sheet, if_pos h5']
    · rw [read_sheet, if_neg h5']
      have hmem' : sh ∈ rest := by
        cases List.mem_cons.mp hmem with
        | inl heq => exact absurd (heq ▸ h5) h5'
        | inr h => exact h
      rw [ih hmem']

/-! ### Order lemmas for the interpolated quantile -/

/-- Reading a sorted list at a smaller in-range index gives a smaller or
equal value. -/
theorem sorted_getD_le {s : List ℚ} (hs : List.Sorted (· ≤ ·) s)
    {i j : Nat} (hij : i ≤ j) (hj : j < s.length) :
    s.getD i 0 ≤ s.getD j 0 := by
  have hi : i < s.length := lt_of_le_of_lt hij hj
  rw [List.getD_eq_getElem s 0 hi, List.getD_eq_getElem s 0 hj]
  rcases lt_or_eq_of_le hij with hlt | heq
  · have := List.Sorted.rel_get_of_lt hs (a := ⟨i, hi⟩) (b := ⟨j, hj⟩) hlt
    simpa using this
  · subst heq
    exact le_refl _

/-- Linear interpolation into a sorted list is monotone in the position:
the heart of the quantile-monotonicity property. -/
theorem interp_at_mono {s : List ℚ} (hs : List.Sorted (· ≤ ·) s)
    {h h' : ℚ} (h0 : 0 ≤ h) (hhh : h ≤ h') (hub : h' ≤ (s.length : ℚ) - 1) :
    interp_at s h ≤ interp_at s h' := by
  have hfl0 : 0 ≤ ⌊h⌋ := Int.floor_nonneg.mpr h0
  have hfl0' : 0 ≤ ⌊h'⌋ := le_trans hfl0 (Int.floor_mono hhh)
  have hcl0 : 0 ≤ ⌈h⌉ := Int.ceil_nonneg h0
  have hcl0' : 0 ≤ ⌈h'⌉ := Int.ceil_nonneg (le_trans h0 hhh)
  have hceil' : ⌈h'⌉ ≤ (s.length : ℤ) - 1 := by
    rw [Int.ceil_le]
    push_cast
    exact hub
  have hceil : ⌈h⌉ ≤ (s.length : ℤ) - 1 := le_trans (Int.ceil_mono hhh) hceil'
  have hfloor : ⌊h⌋ ≤ ⌊h'⌋ := Int.floor_mono hhh
  have hflc : ⌊h⌋ ≤ ⌈h⌉ := Int.floor_le_ceil h
  have hflc' : ⌊h'⌋ ≤ ⌈h'⌉ := Int.floor_le_ceil h'
  have hfceil : ⌊h⌋ ≤ (s.length : ℤ) - 1 := le_trans hflc hceil
  have hfceil' : ⌊h'⌋ ≤ (s.length : ℤ) - 1 := le_trans hflc' hceil'
  have hiN : ⌊h⌋.toNat < s.length := by omega
  have hiN' : ⌊h'⌋.toNat < s.length := by omega
  have hjN : ⌈h⌉.toNat < s.length := by omega
  have hjN' : ⌈h'⌉.toNat < s.length := by omega
  have hab : s.getD ⌊h⌋.toNat 0 ≤ s.getD ⌈h⌉.toNat 0 :=
    sorted_getD_le hs (by omega) hjN
  have hab' : s.getD ⌊h'⌋.toNat 0 ≤ s.getD ⌈h'⌉.toNat 0 :=
    sorted_getD_le hs (by omega) hjN'
  have ht0 : 0 ≤ h - (⌊h⌋ : ℚ) := sub_nonneg.mpr (Int.floor_le h)
  have ht1 : h - (⌊h⌋ : ℚ) ≤ 1 := by
    have := Int.lt_floor_add_one h
    linarith
  have ht0' : 0 ≤ h' - (⌊h'⌋ : ℚ) := sub_nonneg.mpr (Int.floor_le h')
  by_cases hcase : ⌈h⌉ ≤ ⌊h'⌋
  · -- the two interpolation windows are separated: chain through the list
    have step1 : interp_at s h ≤ s.getD ⌈h⌉.toNat 0 := by
      unfold interp_at
      have := mul_le_mul_of_nonneg_right ht1 (sub_nonneg.mpr hab)
      linarith
    have step2 : s.getD ⌈h⌉.toNat 0 ≤ s.getD ⌊h'⌋.toNat 0 :=
      sorted_getD_le hs (by omega) hiN'
    have step3 : s.getD ⌊h'⌋.toNat 0 ≤ interp_at s h' := by
      unfold interp_at
      have := mul_nonneg ht0' (sub_nonneg.mpr hab')
      linarith
    linarith
  · -- both positions interpolate inside the same window [⌊h⌋, ⌊h⌋ + 1]
    have hce : ⌈h⌉ ≤ ⌊h⌋ + 1 := Int.ceil_le_floor_add_one h
    have hce2 : ⌈h'⌉ ≤ ⌊h'⌋ + 1 := Int.ceil_le_floor_add_one h'
    have hcmono : ⌈h⌉ ≤ ⌈h'⌉ := Int.ceil_mono hhh
    have hfl_eq : ⌊h'⌋ = ⌊h⌋ := by omega
    have hcl_eq : ⌈h⌉ = ⌊h⌋ + 1 := by omega
    have hcl'_eq : ⌈h'⌉ = ⌊h⌋ + 1 := by omega
    unfold interp_at
    rw [hfl_eq, hcl_eq, hcl'_eq]
    have hwin : s.getD ⌊h⌋.toNat 0 ≤ s.getD (⌊h⌋ + 1).toNat 0 := by
      apply sorted_getD_le hs (by omega)
      omega
    have hco : h - (⌊h⌋ : ℚ) ≤ h' - (⌊h⌋ : ℚ) := by linarith
    have := mul_le_mul_of_nonneg_right hco (sub_nonneg.mpr hwin)
    linarith

/-- `quantile` is monotone in the fraction on `[0, 1]` — pandas' linearly
interpolated quantiles cannot cross. -/
theorem quantile_mono (xs : List ℚ) {p p' : ℚ}
    (hp0 : 0 ≤ p) (hpp : p ≤ p') (hp1 : p' ≤ 1) :
    quantile xs p ≤ quantile xs p' := by
  unfold quantile
  by_cases hlen : (List.insertionSort (· ≤ ·) xs).length = 0
  · simp [hlen]
  · simp only [if_neg hlen]
    have hsorted : List.Sorted (· ≤ ·) (List.insertionSort (· ≤ ·) xs) :=
      List.sorted_insertionSort _ xs
    have hone : 1 ≤ (List.insertionSort (· ≤ ·) xs).length :=
      Nat.one_le_iff_ne_zero.mpr hlen
    have hn1 : (0 : ℚ) ≤ ((List.insertionSort (· ≤ ·) xs).length : ℚ) - 1 := by
      have : (1 : ℚ) ≤ ((List.insertionSort (· ≤ ·) xs).length : ℚ) := by
        exact_mod_cast hone
      linarith
    apply interp_at_mono hsorted (mul_nonneg hp0 hn1)
      (mul_le_mul_of_nonneg_right hpp hn1)
    calc p' * (((List.insertionSort (· ≤ ·) xs).length : ℚ) - 1)
        ≤ 1 * (((List.insertionSort (· ≤ ·) xs).length : ℚ) - 1) :=
          mul_le_mul_of_nonneg_right hp1 hn1
      _ = ((List.insertionSort (· ≤ ·) xs).length : ℚ) - 1 := one_mul _

/-- pandas' `median` is the linearly interpolated quantile at fraction
one half: the middle sorted value for an odd count, the mean of the two
middle values for an even count. -/
theorem median_eq_quantile_half (xs : List ℚ) : median xs = quantile xs (1 / 2) := by
  unfold median quantile
  by_cases hlen : (List.insertionSort (· ≤ ·) xs).length = 0
  · simp [hlen]
  · simp only [if_neg hlen]
    generalize hsdef : List.insertionSort (· ≤ ·) xs = s at hlen ⊢
    generalize hndef : s.length = n at hlen ⊢
    by_cases hpar : n % 2 = 1
    · -- odd count: both sides are the middle entry
      simp only [if_pos hpar]
      obtain ⟨k, hk⟩ : ∃ k, n = 2 * k + 1 := ⟨n / 2, by omega⟩
      have harg : (1 / 2 : ℚ) * ((n : ℚ) - 1) = (k : ℚ) := by
        subst hk
        push_cast
        ring
      rw [harg]
      unfold interp_at
      rw [Int.floor_natCast, Int.ceil_natCast, Int.toNat_natCast]
      have hdiv : n / 2 = k := by omega
      rw [hdiv]
      ring
    · -- even count: both sides average the two middle entries
      simp only [if_neg hpar]
      obtain ⟨m, hm1, hm⟩ : ∃ m, 1 ≤ m ∧ n = 2 * m := ⟨n / 2, by omega, by omega⟩
      have harg : (1 / 2 : ℚ) * ((n : ℚ) - 1) = (m : ℚ) - 1 / 2 := by
        subst hm
        push_cast
        ring
      rw [harg]
      have hfl : ⌊(m : ℚ) - 1 / 2⌋ = (m : ℤ) - 1 := by
        rw [Int.floor_eq_iff]
        constructor
        · push_cast
          linarith
        · push_cast
          linarith
      have hcl : ⌈(m : ℚ) - 1 / 2⌉ = (m : ℤ) := by
        rw [Int.ceil_eq_iff]
        constructor
        · push_cast
          linarith
        · push_cast
          linarith
      unfold interp_at
      rw [hfl, hcl]
      have htn1 : ((m : ℤ) - 1).toNat = m - 1 := by omega
      have htn2 : ((m : ℤ)).toNat = m := by omega
      rw [htn1, htn2]
      have hdiv1 : n / 2 - 1 = m - 1 := by omega
      have hdiv2 : n / 2 = m := by omega
      rw [hdiv1, hdiv2]
      have hcast : (((m : ℤ) - 1 : ℤ) : ℚ) = (m : ℚ) - 1 := by push_cast; ring
      rw [hcast]
      ring

/-- The interpolated quantile of a one-value group is that value, at every
fraction. -/
theorem quantile_singleton (x p : ℚ) : quantile [x] p = x := by
  unfold quantile
  have hs : List.insertionSort (· ≤ ·) [x] = [x] := by
    simp [List.insertionSort, List.orderedInsert]
  rw [hs]
  have harg : p * (((1 : ℕ) : ℚ) - 1) = 0 := by
    push_cast
    ring
  simp only [List.length_singleton, harg]
  unfold interp_at
  norm_num

/-- The median of a one-value group is that value. -/
theorem median_singleton (x : ℚ) : median [x] = x := by
  unfold median
  have hs : List.insertionSort (· ≤ ·) [x] = [x] := by
    simp [List.insertionSort, List.orderedInsert]
  rw [hs]
  simp

/-! ## The claims -/

/-- C1, counterexample: with the registry `["USDN_REL", "USDN"]` (stored
length-descending and containing both tokens), the sheet name `"A_B_USDN"`
ends with `"_USDN"`, so the longest-registered-suffix rule the claim
describes must return `("A_B", "USDN")` — but the code's split returns
`("A", "B_USDN")`: `load_stress_data` splits at the *first* underscore and
never consults a registry. -/
theorem resolver_ignores_registry_cex :
    resolve_spec ["USDN_REL".toList, "USDN".toList] "A_B_USDN".toList
        = ("A_B".toList, "USDN".toList) ∧
    split_sheet_name "A_B_USDN".toList = ("A".toList, "B_USDN".toList) ∧
    split_sheet_name "A_B_USDN".toList
        ≠ resolve_spec ["USDN_REL".toList, "USDN".toList] "A_B_USDN".toList := by
  refine ⟨by decide, by decide, by decide⟩

/-- C1 (corrected): for every registry containing both `"USDN"` and
`"USDN_REL"`, resolving `"PORT1_USDN_REL"` does yield
`(portfolio = "PORT1", scenario = "USDN_REL")` — but only because the
portfolio part holds no underscore: resolution ignores the registry and
splits at the first underscore (the components reassemble around it and
the portfolio part is underscore-free), not at the longest registered
suffix. -/
theorem longest_suffix_example_amended (registry : List (List Char))
    (h1 : "USDN".toList ∈ registry) (h2 : "USDN_REL".toList ∈ registry) :
    split_sheet_name "PORT1_USDN_REL".toList
        = ("PORT1".toList, "USDN_REL".toList) ∧
    ∀ name : List Char, '_' ∈ name →
      (split_sheet_name name).1 ++ '_' :: (split_sheet_name name).2 = name ∧
      '_' ∉ (split_sheet_name name).1 := by
  refine ⟨by decide, fun name hmem => ⟨split_concat hmem, split_fst_no_underscore_of_mem hmem⟩⟩

/-- C1, witness: the amended statement at the registry
`["USDN_REL", "USDN"]` and the sheet name `"PORT1_USDN_REL"`. -/
theorem longest_suffix_example_amended_w :
    split_sheet_name "PORT1_USDN_REL".toList
        = ("PORT1".toList, "USDN_REL".toList) :=
  (longest_suffix_example_amended ["USDN_REL".toList, "USDN".toList]
    (by decide) (by decide)).1

/-- C2, counterexample: the sheet name `"FOO"` matches no token of the
registry `["RATES_UP"]` (the spec's resolver returns the `"UNKNOWN"`
sentinel for it), but the code resolves it to `("FOO", "FOO")`, not to
`("FOO", "UNKNOWN")`. -/
theorem unknown_sentinel_cex :
    resolve_spec ["RATES_UP".toList] "FOO".toList
        = ("FOO".toList, "UNKNOWN".toList) ∧
    split_sheet_name "FOO".toList = ("FOO".toList, "FOO".toList) ∧
    split_sheet_name "FOO".toList ≠ ("FOO".toList, "UNKNOWN".toList) := by
  refine ⟨by decide, by decide, by decide⟩

/-- C2 (corrected): there is no `"UNKNOWN"` sentinel in the code. A sheet
name with no underscore (hence matching no `"_" + token` suffix) resolves
to `(sheetName, sheetName)` — portfolio *and* scenario are the whole
name — and processing continues (resolution is total and never aborts). -/
theorem no_match_resolves_to_name_itself (name : List Char) (h : '_' ∉ name) :
    split_sheet_name name = (name, name) :=
  split_of_not_mem h

/-- C2, witness: the amended statement at the underscore-free sheet name
`"BAR"`. -/
theorem no_match_resolves_to_name_itself_w :
    split_sheet_name "BAR".toList = ("BAR".toList, "BAR".toList) :=
  no_match_resolves_to_name_itself "BAR".toList (by decide)

/-- C3, counterexample: the sheet name `"CASH"` resolves to
`("CASH", "CASH")`; the scenario component differs from `"UNKNOWN"`, yet
`"CASH" + "_" + "CASH"` is not the original sheet name — the claimed
round-trip fails on every underscore-free sheet name. -/
theorem round_trip_cex :
    split_sheet_name "CASH".toList = ("CASH".toList, "CASH".toList) ∧
    "CASH".toList ≠ "UNKNOWN".toList ∧
    "CASH".toList ++ '_' :: "CASH".toList ≠ "CASH".toList := by
  refine ⟨by decide, by decide, by decide⟩

/-- C3 (corrected): the round-trip `portfolio + "_" + scenario =
sheetName` holds exactly on the sheet names that contain an underscore
(not whenever the scenario differs from an `"UNKNOWN"` sentinel, which
the code never produces): for such names the split's two components
reassemble to the original name. -/
theorem round_trip_amended (name : List Char) (h : '_' ∈ name) :
    (split_sheet_name name).1 ++ '_' :: (split_sheet_name name).2 = name :=
  split_concat h

/-- C3, witness: the amended round-trip at the sheet name
`"EGQ_RATES_UP"`. -/
theorem round_trip_amended_w :
    (split_sheet_name "EGQ_RATES_UP".toList).1 ++
        '_' :: (split_sheet_name "EGQ_RATES_UP".toList).2
      = "EGQ_RATES_UP".toList :=
  round_trip_amended "EGQ_RATES_UP".toList (by decide)

/-- C10 (confirmed): as written, the split assigns as Portfolio the
substring before the first underscore (so the portfolio part never
contains an underscore, and gluing the two parts back around one
underscore restores the name — which pins the split point to the *first*
underscore), and for a name with no underscore both Portfolio and
ScenarioName are the entire sheet name, with no sentinel. -/
theorem first_underscore_split (name : List Char) :
    ('_' ∈ name →
      (split_sheet_name name).1 ++ '_' :: (split_sheet_name name).2 = name ∧
      '_' ∉ (split_sheet_name name).1) ∧
    ('_' ∉ name → split_sheet_name name = (name, name)) :=
  ⟨fun h => ⟨split_concat h, split_fst_no_underscore_of_mem h⟩,
   fun h => split_of_not_mem h⟩

/-- C10, witness: both branches at concrete sheet names — `"A_B_C"` (split
at the first underscore) and `"ABC"` (returned whole, twice). -/
theorem first_underscore_split_w :
    ((split_sheet_name "A_B_C".toList).1 ++
        '_' :: (split_sheet_name "A_B_C".toList).2 = "A_B_C".toList ∧
      '_' ∉ (split_sheet_name "A_B_C".toList).1) ∧
    split_sheet_name "ABC".toList = ("ABC".toList, "ABC".toList) :=
  ⟨(first_underscore_split "A_B_C".toList).1 (by decide),
   (first_underscore_split "ABC".toList).2 (by decide)⟩

/-- C4 (confirmed): a successful normalization takes every record's Date,
Scenario and StressPnL from positional cells 0, 2 and 4 of a source row,
attaches Portfolio/ScenarioName from the resolved sheet identity, projects
to exactly those five fields, and unions all sheets (one record per source
row); on the spec's three-sheet Scenario E2E workbook it yields exactly
the 3 records with portfolios ALPHA, ALPHA, BETA and scenarios RATES_UP,
RATES_DOWN, RATES_UP. -/
theorem stress_normalization_positional :
    (∀ (wb : List (Sheet String)) (recs : List (StressRecord String)),
      load_stress_data wb = Except.ok recs →
        recs.length = (wb.map fun sh => sh.rows.length).sum ∧
        ∀ rec ∈ recs, ∃ sh ∈ wb, ∃ row ∈ sh.rows,
          rec.date = row.getD 0 default ∧
          rec.scenario = row.getD 2 default ∧
          rec.stressPnL = row.getD 4 default ∧
          rec.portfolio = (split_sheet_name sh.sheet_name).1 ∧
          rec.scenarioName = (split_sheet_name sh.sheet_name).2) ∧
    load_stress_data stress_wb_e2e = Except.ok stress_records_e2e ∧
    stress_records_e2e.map (fun r => r.portfolio)
        = ["ALPHA".toList, "ALPHA".toList, "BETA".toList] ∧
    stress_records_e2e.map (fun r => r.scenarioName)
        = ["RATES_UP".toList, "RATES_DOWN".toList, "RATES_UP".toList] := by
  refine ⟨?_, rfl, by decide, by decide⟩
  intro wb recs h
  rw [load_stress_data] at h
  by_cases hwb : wb.isEmpty
  · rw [if_pos hwb] at h
    cases h
  · rw [if_neg hwb] at h
    exact ⟨concat_sheets_length h, concat_sheets_fields h⟩

/-- C4, witness: the record count of the Scenario E2E workbook, through
the general part of the theorem at that workbook. -/
theorem stress_normalization_positional_w :
    stress_records_e2e.length = (stress_wb_e2e.map fun sh => sh.rows.length).sum :=
  (stress_normalization_positional.1 stress_wb_e2e stress_records_e2e
    stress_normalization_positional.2.1).1

/-- C5 (confirmed): the correlation loader returns the sheet's rows sorted
ascending by the date index with each row's series cells unchanged and
attached to its date (the output is a permutation of the input rows); on
the spec's two-row E2E sheet with dates 2024-01-02, 2024-01-01 out of
order, the 2024-01-01 row comes first. -/
theorem corr_loader_sorted :
    (∀ rows : List CorrRow,
      List.Sorted date_le (load_corr_data rows) ∧
      (load_corr_data rows).Perm rows) ∧
    load_corr_data [(20240102, [55 / 100]), (20240101, [60 / 100])]
        = [(20240101, [60 / 100]), (20240102, [55 / 100])] := by
  refine ⟨fun rows => ⟨List.sorted_insertionSort date_le rows,
    List.perm_insertionSort date_le rows⟩, ?_⟩
  rfl

/-- C6 (confirmed): one sheet with fewer than five columns makes the whole
`load_stress_data` call raise the positional `IndexError` — the result is
the error, never a partial record collection from the other sheets. -/
theorem malformed_sheet_aborts {α : Type} [Inhabited α]
    (wb : List (Sheet α)) (sh : Sheet α)
    (hmem : sh ∈ wb) (h5 : sh.ncols < 5) :
    load_stress_data wb = Except.error out_of_bounds_msg := by
  cases wb with
  | nil => cases hmem
  | cons a l =>
    rw [load_stress_data]
    simpa using concat_sheets_error hmem h5

/-- C6, witness: a one-sheet workbook whose sheet has three columns. -/
theorem malformed_sheet_aborts_w :
    load_stress_data [⟨"ALPHA_RATES_UP".toList, 3, [["2024-01-31", "b", "SC"]]⟩]
        = Except.error out_of_bounds_msg :=
  malformed_sheet_aborts
    [⟨"ALPHA_RATES_UP".toList, 3, [["2024-01-31", "b", "SC"]]⟩]
    ⟨"ALPHA_RATES_UP".toList, 3, [["2024-01-31", "b", "SC"]]⟩
    (by decide) (by decide)

/-- C7 (confirmed): when every filtered record belongs to the selected
portfolio (fewer than 2 portfolios selected), the bucket partition is
empty and the comparison block stops with the explicit
"Not enough portfolios selected" warning — no median or quantile
statistic is computed. -/
theorem insufficient_peers_rejected (records : List PnlRow) (subject : String)
    (h : ∀ r ∈ records, r.portfolio = subject) :
    comparison_analysis records subject = Except.error not_enough_msg := by
  have hfil : (records.filter fun r => r.portfolio ≠ subject) = [] :=
    List.filter_eq_nil_iff.mpr fun r hr => by simp [h r hr]
  unfold comparison_analysis
  simp [hfil]
  exact h

/-- C7, witness: a single-portfolio selection (all records belong to
portfolio "A", the subject). -/
theorem insufficient_peers_rejected_w :
    comparison_analysis [⟨"A", "X", 10⟩] "A" = Except.error not_enough_msg :=
  insufficient_peers_rejected [⟨"A", "X", 10⟩] "A" (by decide)

/-- C8 (confirmed): every row of the grouped bucket statistics satisfies
q25 ≤ median ≤ q75 — pandas' linearly interpolated quantiles at 0.25, 0.5
(the median) and 0.75 of one group's values are monotone in the
fraction. -/
theorem bucket_quantiles_ordered (bucket : List PnlRow) (st : BucketStat)
    (h : st ∈ df_bucket_stats bucket) :
    st.q25 ≤ st.bucket_median ∧ st.bucket_median ≤ st.q75 := by
  rcases List.mem_map.mp h with ⟨sc, hsc, rfl⟩
  dsimp only
  rw [median_eq_quantile_half]
  exact ⟨quantile_mono _ (by norm_num) (by norm_num) (by norm_num),
    quantile_mono _ (by norm_num) (by norm_num) (by norm_num)⟩

/-- C8, witness: the one-group bucket `[("B", "X", 20)]`, whose statistics
row is ("X", 20, 20, 20). -/
theorem bucket_quantiles_ordered_w :
    ((⟨"X", 20, 20, 20⟩ : BucketStat) ∈ df_bucket_stats [⟨"B", "X", 20⟩]) ∧
    ((20 : ℚ) ≤ 20 ∧ (20 : ℚ) ≤ 20) := by
  have hstats : df_bucket_stats [⟨"B", "X", 20⟩]
      = [⟨"X", median [20], quantile [20] (1 / 4), quantile [20] (3 / 4)⟩] := rfl
  have hmem : (⟨"X", 20, 20, 20⟩ : BucketStat) ∈ df_bucket_stats [⟨"B", "X", 20⟩] := by
    rw [hstats, median_singleton, quantile_singleton, quantile_singleton]
    exact List.mem_singleton.mpr rfl
  exact ⟨hmem, bucket_quantiles_ordered [⟨"B", "X", 20⟩] ⟨"X", 20, 20, 20⟩ hmem⟩

/-- C9 (confirmed): the source's repeated definitions of
`load_stress_data` (lines 46-64, 227-254, 276-303, 322-349, 368-395 of
app.py are textually identical) all compute the same function: on every
workbook each duplicate returns exactly what the first definition
returns. -/
theorem duplicate_loaders_agree {α : Type} [Inhabited α] (wb : List (Sheet α)) :
    load_stress_data_v2 wb = load_stress_data wb ∧
    load_stress_data_v3 wb = load_stress_data wb ∧
    load_stress_data_v4 wb = load_stress_data wb ∧
    load_stress_data_v5 wb = load_stress_data wb :=
  ⟨rfl, rfl, rfl, rfl⟩

end CorrMulti
